import Mathlib

/-!
Shallow embedding of `src/examples/sound/cdstream/stream.c` (PSn00bSDK SPU
CD-ROM streaming example): a circular byte buffer shared between a producer
(`Stream_Feed` / `Stream_GetFeedPtr`) and a consumer (the SPU IRQ handler
`_spu_irq_handler`), plus the start/stop control API built around the global
`_active_ctx` pointer.

Hardware register writes (`SPU_CTRL`, `SPU_IRQ_ADDR`, `SPU_CH_*`,
`SpuSetTransferStartAddr`, `SpuWrite`, `SpuSetKey`) and the byte contents of
the ring buffer are outside the model; the model tracks the bookkeeping state
(`head`, `tail`, `length`, flags, counters) and, for each handler invocation,
whether the refill / underrun callbacks were invoked.

Machine integers are modelled as `Nat` (for `size_t` / `uint32_t` fields) and
`Int` (for values the C code computes in signed `int`), with 32-bit unsigned
wraparound made explicit (`u32`) where the C code converts a signed
intermediate back to an unsigned type. The `(int)` casts of `size_t` operands
are modelled as exact: on the 32-bit PS1 target every buffer size, offset and
chunk size is bounded by the 512 KiB of SPU RAM, far below `2^31`, so the
casts never change a value. Unsigned additions (`head + len`,
`tail + chunk_size`, `buffer.length + length`) are likewise modelled without
wraparound, which is exact for the same reason whenever the ring-buffer
invariant holds.
-/

namespace CdStream

/-- Conversion of a signed intermediate result to a 32-bit unsigned value, as
performed by C's usual arithmetic conversions when an `int` meets a `size_t`
on a 32-bit target. -/
def u32 (i : Int) : Nat := (i % 4294967296).toNat

/-- Ring-buffer bookkeeping: `head` is the next write offset, `tail` the next
read offset, `length` the number of buffered bytes (`StreamBuffer` in
`stream.h`; the `data` byte array itself is not modelled). -/
structure StreamBuffer where
  head : Nat
  tail : Nat
  length : Nat
  deriving Repr, DecidableEq

/-- Configuration passed to `Stream_Init` (`Stream_Config`). Callback function
pointers are modelled by whether they are non-null. -/
structure Stream_Config where
  channel_mask : Nat
  interleave : Nat
  buffer_size : Nat
  refill_threshold : Nat
  sample_rate : Nat
  refill_callback : Bool
  underrun_callback : Bool
  deriving Repr, DecidableEq

/-- Per-stream state (`Stream_Context`). `db_active` is the double-buffer
index (the C field is an integer toggled by `^= 1`). -/
structure Stream_Context where
  config : Stream_Config
  buffer : StreamBuffer
  num_channels : Nat
  chunk_size : Nat
  db_active : Nat
  buffering : Bool
  chunk_counter : Nat
  callback_issued : Bool
  deriving Repr, DecidableEq

/-- Result of one invocation of the SPU IRQ handler on a non-null context:
the updated context plus which user callbacks were invoked during the call. -/
structure IrqResult where
  ctx : Stream_Context
  underrun_fired : Bool
  refill_fired : Bool
  deriving Repr, DecidableEq

/-- `_spu_irq_handler`, for a non-null `_active_ctx`. The handler first
computes `int length = (int) ctx->buffer.length - (int) ctx->chunk_size`; a
negative result is an underrun: the underrun callback is invoked (if non-null)
and the handler returns with the context untouched (only the hardware
`SPU_CTRL` bit, outside the model, is written). Otherwise it toggles
`db_active`, sets `buffering`, bumps `chunk_counter`, consumes one chunk
(advancing `tail` mod `buffer_size` and storing the decreased `length`), and,
when the new length is at or below `refill_threshold` and `callback_issued`
is still clear, invokes the refill callback (if non-null) and sets
`callback_issued`. The SPU reprogramming and chunk upload at the end of the C
function touch hardware only. -/
def spuIrqHandler (c : Stream_Context) : IrqResult :=
  let length : Int := (c.buffer.length : Int) - (c.chunk_size : Int)
  if length < 0 then
    { ctx := c, underrun_fired := c.config.underrun_callback, refill_fired := false }
  else
    let c1 : Stream_Context :=
      { c with
        db_active := c.db_active ^^^ 1
        buffering := true
        chunk_counter := c.chunk_counter + 1
        buffer :=
          { c.buffer with
            tail := (c.buffer.tail + c.chunk_size) % c.config.buffer_size
            length := length.toNat } }
    if length ≤ (c.config.refill_threshold : Int) ∧ ¬c.callback_issued then
      { ctx := { c1 with callback_issued := true }
        underrun_fired := false
        refill_fired := c.config.refill_callback }
    else
      { ctx := c1, underrun_fired := false, refill_fired := false }

/-- `Stream_Feed`: commits `length` bytes. The C code computes
`int unbuf_total = (int) buffer_size - (int) buffer.length` and then
`length = _min(length, unbuf_total)`; in that comparison the signed
`unbuf_total` is converted back to `size_t`, which `u32` makes explicit.
`head` advances by the committed amount mod `buffer_size`, `length` grows by
it, and if the new length is strictly above `refill_threshold` the
`callback_issued` flag is cleared. -/
def Stream_Feed (c : Stream_Context) (length : Nat) : Stream_Context :=
  let unbuf_total : Int := (c.config.buffer_size : Int) - (c.buffer.length : Int)
  let len := min length (u32 unbuf_total)
  let new_length := c.buffer.length + len
  { c with
    buffer :=
      { c.buffer with
        head := (c.buffer.head + len) % c.config.buffer_size
        length := new_length }
    callback_issued :=
      if new_length > c.config.refill_threshold then false else c.callback_issued }

/-- `Stream_GetFeedPtr`: returns the contiguous writable run starting at
`head`. The returned pointer is modelled as the byte offset into the buffer
that `*ptr` is set to (`none` on the early-return path, where `*ptr` is left
unwritten); the second component is the returned length
`_min(unbuf_total, unbuf_head)` (a signed comparison between two `int`s). -/
def Stream_GetFeedPtr (c : Stream_Context) : Option Nat × Nat :=
  let head := c.buffer.head
  let unbuf_total : Int := (c.config.buffer_size : Int) - (c.buffer.length : Int)
  let unbuf_head : Int := (c.config.buffer_size : Int) - (head : Int)
  if unbuf_total ≤ 0 then
    (none, 0)
  else
    (some head, u32 (min unbuf_total unbuf_head))

/-- The channel-counting loop in `Stream_Init`:
`for (mask = channel_mask; mask; mask >>= 1) if (mask & 1) num_channels++`. -/
def countChannels (mask : Nat) : Nat :=
  if mask = 0 then 0
  else mask % 2 + countChannels (mask / 2)
decreasing_by exact Nat.div_lt_self (Nat.pos_of_ne_zero (by assumption)) (by omega)

/-- `Stream_Init`: zeroes the context (`memset`), copies the configuration,
derives `num_channels` and `chunk_size`. The `malloc` of the data array and
the interrupt-handler installation are outside the model. -/
def Stream_Init (cfg : Stream_Config) : Stream_Context :=
  let n := countChannels cfg.channel_mask
  { config := cfg
    buffer := { head := 0, tail := 0, length := 0 }
    num_channels := n
    chunk_size := cfg.interleave * n
    db_active := 0
    buffering := false
    chunk_counter := 0
    callback_issued := false }

/-- Global system state: the process-wide `_active_ctx` pointer (modelled as
an optional context identifier, `none` for the C null pointer) together with
the heap of stream contexts, indexed by identifier. -/
structure SysState where
  active : Option Nat
  ctxs : Nat → Stream_Context

/-- `_spu_irq_handler` at the system level: reads `_active_ctx`, returns at
once when it is null (only the hardware `SPU_CTRL` bit is written), otherwise
runs the handler body on the active context. -/
def sysIrqHandler (g : SysState) : SysState :=
  match g.active with
  | none => g
  | some p => { g with ctxs := Function.update g.ctxs p (spuIrqHandler (g.ctxs p)).ctx }

/-- `Stream_Start(ctx, resume)`: fails (returning `false`, with nothing
written) when `_active_ctx` is non-null, even when it already equals `ctx`.
Otherwise binds `ctx` as the active context, primes the pipeline by invoking
the IRQ handler when not resuming (the busy-wait for the transfer and the
per-channel address/pitch/envelope programming touch hardware only), invokes
the handler once more and returns `true`. -/
def Stream_Start (g : SysState) (p : Nat) (resume : Bool) : Bool × SysState :=
  if g.active.isSome then
    (false, g)
  else
    let g1 : SysState := { g with active := some p }
    let g2 := if resume then g1 else sysIrqHandler g1
    let g3 := sysIrqHandler g2
    (true, g3)

/-- `Stream_Stop()`: fails (returning `false`, with nothing written) when
`_active_ctx` is null; otherwise clears `_active_ctx` and returns `true`
(the key-off / dummy-block repointing / key-on sequence touches hardware
only). -/
def Stream_Stop (g : SysState) : Bool × SysState :=
  match g.active with
  | none => (false, g)
  | some _ => (true, { g with active := none })

/-- `Stream_IsActive(ctx)`: `ctx == _active_ctx` (pointer comparison). -/
def Stream_IsActive (g : SysState) (p : Nat) : Bool :=
  g.active = some p

/-! ### Producer/consumer traces

For the temporal refill-callback claim, a trace is a list of operations, each
either a `Stream_Feed` call from mainline or an invocation of the SPU IRQ
consumption handler on the (active) context. -/

/-- One operation of a producer/consumer trace on a single stream context. -/
inductive StreamOp where
  | feed (n : Nat)
  | irq
  deriving Repr, DecidableEq

/-- Execute one trace operation; the boolean records whether the refill
callback was invoked by this operation (`Stream_Feed` never invokes it). -/
def stepOp (c : Stream_Context) : StreamOp → Stream_Context × Bool
  | .feed n => (Stream_Feed c n, false)
  | .irq => ((spuIrqHandler c).ctx, (spuIrqHandler c).refill_fired)

/-- Execute a list of trace operations from left to right. -/
def runOps (c : Stream_Context) : List StreamOp → Stream_Context
  | [] => c
  | op :: ops => runOps (stepOp c op).1 ops

/-- The refill callback is invoked by the `i`-th operation of the trace. -/
def firedAt (c : Stream_Context) (ops : List StreamOp) (i : Nat) : Prop :=
  i < ops.length ∧ (stepOp (runOps c (ops.take i)) (ops.getD i .irq)).2 = true

instance (c : Stream_Context) (ops : List StreamOp) (i : Nat) :
    Decidable (firedAt c ops i) := by
  unfold firedAt; infer_instance

/-! ### Characterization lemmas -/

/-- On underrun (`buffer.length < chunk_size`, so the signed `length`
intermediate is negative) the handler fires the underrun callback (when
non-null) and leaves the context untouched. -/
theorem spuIrqHandler_of_underrun (c : Stream_Context)
    (h : c.buffer.length < c.chunk_size) :
    spuIrqHandler c =
      { ctx := c, underrun_fired := c.config.underrun_callback, refill_fired := false } := by
  unfold spuIrqHandler
  rw [if_pos (by omega : ((c.buffer.length : Int) - (c.chunk_size : Int)) < 0)]

/-- With at least one chunk buffered, the handler toggles `db_active`,
consumes one chunk, and fires the refill callback exactly when the new length
is at or below the threshold and `callback_issued` was still clear. -/
theorem spuIrqHandler_of_no_underrun (c : Stream_Context)
    (h : c.chunk_size ≤ c.buffer.length) :
    spuIrqHandler c =
      { ctx :=
          { config := c.config
            buffer :=
              { head := c.buffer.head
                tail := (c.buffer.tail + c.chunk_size) % c.config.buffer_size
                length := c.buffer.length - c.chunk_size }
            num_channels := c.num_channels
            chunk_size := c.chunk_size
            db_active := c.db_active ^^^ 1
            buffering := true
            chunk_counter := c.chunk_counter + 1
            callback_issued :=
              (c.callback_issued ||
                decide (c.buffer.length - c.chunk_size ≤ c.config.refill_threshold)) }
        underrun_fired := false
        refill_fired :=
          ((decide (c.buffer.length - c.chunk_size ≤ c.config.refill_threshold) &&
            !c.callback_issued) && c.config.refill_callback) } := by
  unfold spuIrqHandler
  rw [if_neg (by omega : ¬(((c.buffer.length : Int) - (c.chunk_size : Int)) < 0))]
  have htoNat : ((c.buffer.length : Int) - (c.chunk_size : Int)).toNat =
      c.buffer.length - c.chunk_size := by omega
  have hth : (((c.buffer.length : Int) - (c.chunk_size : Int)) ≤
      (c.config.refill_threshold : Int)) ↔
      (c.buffer.length - c.chunk_size ≤ c.config.refill_threshold) := by omega
  split_ifs with h1
  · obtain ⟨ha, hb⟩ := h1
    have hb' : c.callback_issued = false := by
      revert hb; cases c.callback_issued <;> simp
    simp [htoNat, hth.mp ha, hb']
  · rw [Classical.not_and_iff_or_not_not] at h1
    rcases h1 with h1 | h1
    · have h1' : ¬(c.buffer.length - c.chunk_size ≤ c.config.refill_threshold) :=
        fun hc => h1 (hth.mpr hc)
      simp [htoNat, h1']
    · have h1' : c.callback_issued = true := by
        revert h1; cases c.callback_issued <;> simp
      simp [htoNat, h1']

/-- Helper: the 32-bit unsigned reading of `buffer_size - length` is the
natural subtraction whenever the length is within capacity and the capacity
fits in 32 bits. -/
theorem u32_unbuf (cap len : Nat) (h1 : len ≤ cap) (h2 : cap < 4294967296) :
    u32 ((cap : Int) - (len : Int)) = cap - len := by
  unfold u32
  omega

/-- `Stream_Feed` on a state whose length is within capacity commits
`min n free` bytes, advancing `head` and growing `length` by that amount, and
clears `callback_issued` exactly when the new length exceeds the threshold. -/
theorem Stream_Feed_eq (c : Stream_Context) (n : Nat)
    (hlen : c.buffer.length ≤ c.config.buffer_size)
    (hcap : c.config.buffer_size < 4294967296) :
    Stream_Feed c n =
      { c with
        buffer :=
          { c.buffer with
            head := (c.buffer.head + min n (c.config.buffer_size - c.buffer.length)) %
              c.config.buffer_size
            length := c.buffer.length + min n (c.config.buffer_size - c.buffer.length) }
        callback_issued :=
          if c.config.refill_threshold <
              c.buffer.length + min n (c.config.buffer_size - c.buffer.length)
          then false else c.callback_issued } := by
  unfold Stream_Feed
  simp only [u32_unbuf _ _ hlen hcap]

/-- The consumption handler never changes the chunk size. -/
theorem spuIrq_chunk_size (c : Stream_Context) :
    (spuIrqHandler c).ctx.chunk_size = c.chunk_size := by
  by_cases h : c.buffer.length < c.chunk_size
  · rw [spuIrqHandler_of_underrun c h]
  · rw [spuIrqHandler_of_no_underrun c (Nat.le_of_not_lt h)]

/-- Without underrun, the consumption handler XORs `db_active` with 1. -/
theorem spuIrq_db_of_le (c : Stream_Context) (h : c.chunk_size ≤ c.buffer.length) :
    (spuIrqHandler c).ctx.db_active = c.db_active ^^^ 1 := by
  rw [spuIrqHandler_of_no_underrun c h]

/-! ### Concrete states used as witnesses -/

/-- A small two-channel configuration: capacity 8, chunk size 2, refill
threshold 4, both callbacks registered. -/
def cfgA : Stream_Config :=
  { channel_mask := 3
    interleave := 1
    buffer_size := 8
    refill_threshold := 4
    sample_rate := 44100
    refill_callback := true
    underrun_callback := true }

/-- A context under `cfgA` holding 6 buffered bytes, refill flag clear. -/
def ctxSix : Stream_Context :=
  { config := cfgA
    buffer := { head := 6, tail := 0, length := 6 }
    num_channels := 2
    chunk_size := 2
    db_active := 0
    buffering := false
    chunk_counter := 0
    callback_issued := false }

/-- A context under `cfgA` holding only 1 buffered byte: less than one chunk
(underrun) and below the refill threshold. -/
def ctxLow : Stream_Context :=
  { config := cfgA
    buffer := { head := 1, tail := 0, length := 1 }
    num_channels := 2
    chunk_size := 2
    db_active := 0
    buffering := false
    chunk_counter := 0
    callback_issued := false }

/-- An empty context under `cfgA` whose head and tail sit mid-buffer. -/
def ctxEmpty : Stream_Context :=
  { config := cfgA
    buffer := { head := 5, tail := 5, length := 0 }
    num_channels := 2
    chunk_size := 2
    db_active := 0
    buffering := false
    chunk_counter := 0
    callback_issued := false }

/-! ### Claim theorems -/

/-- C2: on every invocation of the consumption interrupt handler with an
active stream (and a registered underrun callback), the underrun callback is
invoked iff the buffered length is strictly less than `chunk_size`, and in
that case the ring-buffer `tail` and `length` are left unchanged. -/
theorem underrun_iff_insufficient_data (c : Stream_Context)
    (hcb : c.config.underrun_callback = true) :
    ((spuIrqHandler c).underrun_fired = true ↔ c.buffer.length < c.chunk_size) ∧
    (c.buffer.length < c.chunk_size →
      (spuIrqHandler c).ctx.buffer.tail = c.buffer.tail ∧
      (spuIrqHandler c).ctx.buffer.length = c.buffer.length) := by
  by_cases h : c.buffer.length < c.chunk_size
  · rw [spuIrqHandler_of_underrun c h]
    simp [hcb, h]
  · rw [spuIrqHandler_of_no_underrun c (Nat.le_of_not_lt h)]
    simp [h]

/-- C2 witness: at `ctxLow` (1 byte buffered, chunk size 2) the handler
reports an underrun and leaves `tail` and `length` alone. -/
theorem underrun_iff_insufficient_data_witness :
    ctxLow.config.underrun_callback = true ∧
    (((spuIrqHandler ctxLow).underrun_fired = true ↔
        ctxLow.buffer.length < ctxLow.chunk_size) ∧
      (ctxLow.buffer.length < ctxLow.chunk_size →
        (spuIrqHandler ctxLow).ctx.buffer.tail = ctxLow.buffer.tail ∧
        (spuIrqHandler ctxLow).ctx.buffer.length = ctxLow.buffer.length)) :=
  ⟨by decide, underrun_iff_insufficient_data ctxLow (by decide)⟩

/-- C9: on an underrun invocation the handler returns before the refill
check, so the refill callback is not invoked and `callback_issued` is left
unchanged (even when the buffered length is at or below the threshold). -/
theorem underrun_no_refill (c : Stream_Context)
    (h : c.buffer.length < c.chunk_size) :
    (spuIrqHandler c).refill_fired = false ∧
    (spuIrqHandler c).ctx.callback_issued = c.callback_issued := by
  rw [spuIrqHandler_of_underrun c h]
  exact ⟨rfl, rfl⟩

/-- C9 witness: `ctxLow` has 1 byte buffered, below both the chunk size and
the refill threshold, yet no refill callback fires and the flag is kept. -/
theorem underrun_no_refill_witness :
    ctxLow.buffer.length < ctxLow.chunk_size ∧
    ctxLow.buffer.length ≤ ctxLow.config.refill_threshold ∧
    ((spuIrqHandler ctxLow).refill_fired = false ∧
      (spuIrqHandler ctxLow).ctx.callback_issued = ctxLow.callback_issued) :=
  ⟨by decide, by decide, underrun_no_refill ctxLow (by decide)⟩

/-- C8 counterexample: an underrun invocation of the consumption interrupt
handler does not toggle `db_active`, contradicting "toggled exactly once per
consumption interrupt" for every invocation. -/
theorem db_toggle_counterexample :
    ctxLow.buffer.length < ctxLow.chunk_size ∧
    (spuIrqHandler ctxLow).ctx.db_active = ctxLow.db_active := by
  decide

/-- C8 amended: on every invocation of the consumption interrupt handler that
finds at least one chunk of buffered data (no underrun), `db_active` is
toggled exactly once, and two consecutive such invocations return it to its
prior value. -/
theorem db_toggled_once_no_underrun (c : Stream_Context)
    (h : c.chunk_size ≤ c.buffer.length) :
    (spuIrqHandler c).ctx.db_active = c.db_active ^^^ 1 ∧
    (c.chunk_size ≤ (spuIrqHandler c).ctx.buffer.length →
      (spuIrqHandler (spuIrqHandler c).ctx).ctx.db_active = c.db_active) := by
  constructor
  · exact spuIrq_db_of_le c h
  · intro h2
    have hc : (spuIrqHandler c).ctx.chunk_size ≤ (spuIrqHandler c).ctx.buffer.length := by
      rw [spuIrq_chunk_size]; exact h2
    rw [spuIrq_db_of_le _ hc, spuIrq_db_of_le c h]
    simp [Nat.xor_assoc]

/-- C8 amended witness: at `ctxSix` (6 bytes buffered, chunk size 2) the
first invocation flips `db_active` and the second flips it back. -/
theorem db_toggled_once_no_underrun_witness :
    ctxSix.chunk_size ≤ ctxSix.buffer.length ∧
    ((spuIrqHandler ctxSix).ctx.db_active = ctxSix.db_active ^^^ 1 ∧
      (ctxSix.chunk_size ≤ (spuIrqHandler ctxSix).ctx.buffer.length →
        (spuIrqHandler (spuIrqHandler ctxSix).ctx).ctx.db_active = ctxSix.db_active)) :=
  ⟨by decide, db_toggled_once_no_underrun ctxSix (by decide)⟩

/-- C3: `Stream_Feed` commits exactly `min n free` bytes where
`free = buffer_size - length`: the length grows by that amount, never exceeds
the capacity (head never overruns tail), and the head advances by the
committed amount modulo the capacity. -/
theorem feed_commits_min (c : Stream_Context) (n : Nat)
    (hlen : c.buffer.length ≤ c.config.buffer_size)
    (hcap : c.config.buffer_size < 4294967296) :
    (Stream_Feed c n).buffer.length =
      c.buffer.length + min n (c.config.buffer_size - c.buffer.length) ∧
    (Stream_Feed c n).buffer.length ≤ c.config.buffer_size ∧
    (Stream_Feed c n).buffer.head =
      (c.buffer.head + min n (c.config.buffer_size - c.buffer.length)) %
        c.config.buffer_size := by
  rw [Stream_Feed_eq c n hlen hcap]
  refine ⟨rfl, ?_, rfl⟩
  dsimp only
  omega

/-- C3 witness: feeding 5 bytes into `ctxSix` (6 of 8 bytes buffered) commits
only the 2 free bytes. -/
theorem feed_commits_min_witness :
    ctxSix.buffer.length ≤ ctxSix.config.buffer_size ∧
    ctxSix.config.buffer_size < 4294967296 ∧
    ((Stream_Feed ctxSix 5).buffer.length =
        ctxSix.buffer.length +
          min 5 (ctxSix.config.buffer_size - ctxSix.buffer.length) ∧
      (Stream_Feed ctxSix 5).buffer.length ≤ ctxSix.config.buffer_size ∧
      (Stream_Feed ctxSix 5).buffer.head =
        (ctxSix.buffer.head +
            min 5 (ctxSix.config.buffer_size - ctxSix.buffer.length)) %
          ctxSix.config.buffer_size) :=
  ⟨by decide, by decide, feed_commits_min ctxSix 5 (by decide) (by decide)⟩

/-- C5: `Stream_GetFeedPtr` returns the length of the contiguous writable run
starting at `head`, namely `min (capacity - length) (capacity - head)`; the
result is zero exactly when the buffer is full, and whenever the buffer is
not full the out-parameter is set to offset `head` of the buffer. -/
theorem feedPtr_contiguous_run (c : Stream_Context)
    (hlen : c.buffer.length ≤ c.config.buffer_size)
    (hhead : c.buffer.head < c.config.buffer_size)
    (hcap : c.config.buffer_size < 4294967296) :
    (Stream_GetFeedPtr c).2 =
      min (c.config.buffer_size - c.buffer.length)
        (c.config.buffer_size - c.buffer.head) ∧
    ((Stream_GetFeedPtr c).2 = 0 ↔ c.buffer.length = c.config.buffer_size) ∧
    (c.buffer.length < c.config.buffer_size →
      (Stream_GetFeedPtr c).1 = some c.buffer.head) := by
  unfold Stream_GetFeedPtr u32
  dsimp only
  split_ifs with h
  · have hful : c.buffer.length = c.config.buffer_size := by omega
    refine ⟨by omega, by simp [hful], fun hc => absurd hful (by omega)⟩
  · have h1 : c.buffer.length < c.config.buffer_size := by omega
    refine ⟨by omega, ?_, fun _ => rfl⟩
    constructor
    · intro h0
      exfalso
      omega
    · intro h0
      omega

/-- C5 witness: at `ctxSix` (head 6, length 6, capacity 8) the contiguous
writable run is the 2 bytes up to the end of the buffer, starting at
offset 6. -/
theorem feedPtr_contiguous_run_witness :
    ctxSix.buffer.length ≤ ctxSix.config.buffer_size ∧
    ctxSix.buffer.head < ctxSix.config.buffer_size ∧
    ctxSix.config.buffer_size < 4294967296 ∧
    ((Stream_GetFeedPtr ctxSix).2 =
        min (ctxSix.config.buffer_size - ctxSix.buffer.length)
          (ctxSix.config.buffer_size - ctxSix.buffer.head) ∧
      ((Stream_GetFeedPtr ctxSix).2 = 0 ↔
        ctxSix.buffer.length = ctxSix.config.buffer_size) ∧
      (ctxSix.buffer.length < ctxSix.config.buffer_size →
        (Stream_GetFeedPtr ctxSix).1 = some ctxSix.buffer.head)) :=
  ⟨by decide, by decide, by decide,
    feedPtr_contiguous_run ctxSix (by decide) (by decide) (by decide)⟩

/-- The ring-buffer invariant: the buffered length is within the capacity,
both offsets are within the buffer, and tail plus length wraps to head. -/
def RingInv (c : Stream_Context) : Prop :=
  c.buffer.length ≤ c.config.buffer_size ∧
  c.buffer.head < c.config.buffer_size ∧
  c.buffer.tail < c.config.buffer_size ∧
  (c.buffer.tail + c.buffer.length) % c.config.buffer_size = c.buffer.head

instance (c : Stream_Context) : Decidable (RingInv c) := by
  unfold RingInv
  infer_instance

/-- C4: for any positive (32-bit) capacity the ring-buffer invariant holds in
the freshly initialized state and is preserved by every `Stream_Feed` and by
every successful (non-underrun) consumption. -/
theorem ring_invariant_preserved (cfg : Stream_Config) (c : Stream_Context) (n : Nat)
    (hpos : 0 < cfg.buffer_size)
    (hcap : c.config.buffer_size < 4294967296) :
    RingInv (Stream_Init cfg) ∧
    (RingInv c → RingInv (Stream_Feed c n)) ∧
    (RingInv c → c.chunk_size ≤ c.buffer.length → RingInv ((spuIrqHandler c).ctx)) := by
  refine ⟨?_, ?_, ?_⟩
  · unfold Stream_Init RingInv
    dsimp only
    exact ⟨Nat.zero_le _, hpos, hpos, by simp⟩
  · rintro ⟨h1, h2, h3, h4⟩
    rw [Stream_Feed_eq c n h1 hcap]
    unfold RingInv
    dsimp only
    have hpos' : 0 < c.config.buffer_size := by omega
    refine ⟨by omega, Nat.mod_lt _ hpos', h3, ?_⟩
    rw [← h4, Nat.mod_add_mod, Nat.add_assoc]
  · rintro ⟨h1, h2, h3, h4⟩ h5
    rw [spuIrqHandler_of_no_underrun c h5]
    unfold RingInv
    dsimp only
    have hpos' : 0 < c.config.buffer_size := by omega
    refine ⟨by omega, h2, Nat.mod_lt _ hpos', ?_⟩
    rw [Nat.mod_add_mod]
    have harr : c.buffer.tail + c.chunk_size + (c.buffer.length - c.chunk_size) =
        c.buffer.tail + c.buffer.length := by omega
    rw [harr, h4]

/-- C4 witness: the invariant holds for `Stream_Init cfgA` and survives a
3-byte feed and one chunk consumption at `ctxSix`. -/
theorem ring_invariant_preserved_witness :
    0 < cfgA.buffer_size ∧
    ctxSix.config.buffer_size < 4294967296 ∧
    (RingInv (Stream_Init cfgA) ∧
      (RingInv ctxSix → RingInv (Stream_Feed ctxSix 3)) ∧
      (RingInv ctxSix → ctxSix.chunk_size ≤ ctxSix.buffer.length →
        RingInv ((spuIrqHandler ctxSix).ctx))) :=
  ⟨by decide, by decide, ring_invariant_preserved cfgA ctxSix 3 (by decide) (by decide)⟩

/-- `k` back-to-back invocations of the consumption interrupt handler. -/
def irqIter (c : Stream_Context) : Nat → Stream_Context
  | 0 => c
  | k + 1 => irqIter ((spuIrqHandler c).ctx) k

/-- When exactly `k` chunks are buffered, `k` consumption cycles drain the
buffer to length zero. -/
theorem irqIter_length_zero (k : Nat) : ∀ c : Stream_Context,
    c.buffer.length = k * c.chunk_size → (irqIter c k).buffer.length = 0 := by
  induction k with
  | zero => intro c h; simpa [irqIter] using h
  | succ k ih =>
    intro c h
    rw [Nat.succ_mul] at h
    have h5 : c.chunk_size ≤ c.buffer.length := by omega
    show (irqIter ((spuIrqHandler c).ctx) k).buffer.length = 0
    apply ih
    rw [spuIrq_chunk_size, spuIrqHandler_of_no_underrun c h5]
    dsimp only
    omega

/-- C6: starting from an empty ring buffer (any head/tail position), feeding
`N` bytes (`N` a multiple of `chunk_size`, at most the capacity) and then
running `N / chunk_size` consumption cycles returns the length to zero. -/
theorem feed_consume_roundtrip (c : Stream_Context) (N : Nat)
    (hempty : c.buffer.length = 0)
    (hdvd : c.chunk_size ∣ N)
    (hle : N ≤ c.config.buffer_size)
    (hcap : c.config.buffer_size < 4294967296) :
    (irqIter (Stream_Feed c N) (N / c.chunk_size)).buffer.length = 0 := by
  apply irqIter_length_zero
  rw [Stream_Feed_eq c N (by omega) hcap]
  dsimp only
  rw [hempty, Nat.div_mul_cancel hdvd]
  omega

/-- C6 witness: `ctxEmpty` (capacity 8, chunk 2, head = tail = 5) fed 6 bytes
and drained by 3 consumption cycles ends with length 0. -/
theorem feed_consume_roundtrip_witness :
    ctxEmpty.buffer.length = 0 ∧
    ctxEmpty.chunk_size ∣ 6 ∧
    6 ≤ ctxEmpty.config.buffer_size ∧
    ctxEmpty.config.buffer_size < 4294967296 ∧
    (irqIter (Stream_Feed ctxEmpty 6) (6 / ctxEmpty.chunk_size)).buffer.length = 0 :=
  ⟨by decide, by decide, by decide, by decide,
    feed_consume_roundtrip ctxEmpty 6 (by decide) (by decide) (by decide) (by decide)⟩

/-- A system state with context 0 bound as the active stream. -/
def sysA : SysState := { active := some 0, ctxs := fun _ => ctxSix }

/-- A system state with no active stream. -/
def sysNone : SysState := { active := none, ctxs := fun _ => ctxSix }

/-- C7: `Stream_Start` returns `false` and leaves the whole system state
(the active-stream pointer and every stream context) unchanged whenever some
stream is already active, and `Stream_Stop` returns `false` and leaves the
state unchanged whenever none is. -/
theorem start_stop_contention (g gn : SysState) (p : Nat) (r : Bool) :
    (g.active.isSome = true → Stream_Start g p r = (false, g)) ∧
    (gn.active = none → Stream_Stop gn = (false, gn)) := by
  constructor
  · intro h
    unfold Stream_Start
    rw [if_pos h]
  · intro h
    unfold Stream_Stop
    rw [h]

/-- C7 witness: starting context 1 while context 0 is active fails without
touching the state, and stopping with no active stream fails likewise. -/
theorem start_stop_contention_witness :
    (sysA.active.isSome = true ∧ Stream_Start sysA 1 false = (false, sysA)) ∧
    (sysNone.active = none ∧ Stream_Stop sysNone = (false, sysNone)) :=
  ⟨⟨by decide, (start_stop_contention sysA sysNone 1 false).1 (by decide)⟩,
    ⟨rfl, (start_stop_contention sysA sysNone 1 false).2 rfl⟩⟩

/-- C10: `Stream_Start` fails (returning `false`, with no state change) even
when the context being started is itself the currently active stream: the
check is on `_active_ctx` being non-null, not on its identity. -/
theorem start_on_active_self_fails (g : SysState) (p : Nat) (r : Bool)
    (h : Stream_IsActive g p = true) :
    Stream_Start g p r = (false, g) := by
  have h2 : g.active = some p := by simpa [Stream_IsActive] using h
  unfold Stream_Start
  rw [if_pos (by rw [h2]; rfl : g.active.isSome = true)]

/-- C10 witness: restarting the already-active context 0 fails rather than
being a no-op or restart. -/
theorem start_on_active_self_fails_witness :
    Stream_IsActive sysA 0 = true ∧ Stream_Start sysA 0 true = (false, sysA) :=
  ⟨by decide, start_on_active_self_fails sysA 0 true (by decide)⟩

/-! ### Trace lemmas for the refill-callback claim -/

/-- Any operation that fires the refill callback leaves `callback_issued`
set. -/
theorem stepOp_fired_sets_flag (c : Stream_Context) (op : StreamOp)
    (h : (stepOp c op).2 = true) : (stepOp c op).1.callback_issued = true := by
  cases op with
  | feed n => simp [stepOp] at h
  | irq =>
    simp only [stepOp] at h ⊢
    by_cases hu : c.buffer.length < c.chunk_size
    · rw [spuIrqHandler_of_underrun c hu] at h
      simp at h
    · rw [spuIrqHandler_of_no_underrun c (Nat.le_of_not_lt hu)] at h ⊢
      simp only [Bool.and_eq_true, Bool.not_eq_true'] at h
      dsimp only
      rw [h.1.1, Bool.or_true]

/-- While `callback_issued` is set, no operation fires the refill callback. -/
theorem stepOp_flag_blocks_fire (c : Stream_Context) (op : StreamOp)
    (h : c.callback_issued = true) : (stepOp c op).2 = false := by
  cases op with
  | feed n => rfl
  | irq =>
    simp only [stepOp]
    by_cases hu : c.buffer.length < c.chunk_size
    · rw [spuIrqHandler_of_underrun c hu]
    · rw [spuIrqHandler_of_no_underrun c (Nat.le_of_not_lt hu)]
      simp [h]

/-- The only way `callback_issued` can go from set to clear is a
`Stream_Feed` whose resulting buffered length exceeds the refill
threshold. -/
theorem stepOp_flag_cleared_by_feed (c : Stream_Context) (op : StreamOp)
    (h1 : c.callback_issued = true) (h2 : (stepOp c op).1.callback_issued = false) :
    ∃ n, op = .feed n ∧
      c.config.refill_threshold < (stepOp c op).1.buffer.length := by
  cases op with
  | irq =>
    exfalso
    revert h2
    simp only [stepOp]
    by_cases hu : c.buffer.length < c.chunk_size
    · rw [spuIrqHandler_of_underrun c hu]
      simp [h1]
    · rw [spuIrqHandler_of_no_underrun c (Nat.le_of_not_lt hu)]
      simp [h1]
  | feed n =>
    refine ⟨n, rfl, ?_⟩
    revert h2
    simp only [stepOp]
    unfold Stream_Feed
    dsimp only
    split_ifs with hgt
    · intro _
      exact hgt
    · intro hfalse
      rw [h1] at hfalse
      cases hfalse

/-- Neither trace operation changes the stream configuration. -/
theorem stepOp_config (c : Stream_Context) (op : StreamOp) :
    (stepOp c op).1.config = c.config := by
  cases op with
  | feed n => rfl
  | irq =>
    simp only [stepOp]
    by_cases hu : c.buffer.length < c.chunk_size
    · rw [spuIrqHandler_of_underrun c hu]
    · rw [spuIrqHandler_of_no_underrun c (Nat.le_of_not_lt hu)]

/-- Running a trace does not change the stream configuration. -/
theorem runOps_config (ops : List StreamOp) : ∀ c : Stream_Context,
    (runOps c ops).config = c.config := by
  induction ops with
  | nil => intro c; rfl
  | cons op ops ih =>
    intro c
    rw [runOps, ih, stepOp_config]

/-- Running one more step of a trace applies `stepOp` at the state reached by
the prefix. -/
theorem runOps_take_succ (ops : List StreamOp) : ∀ (c : Stream_Context) (i : Nat),
    i < ops.length →
    runOps c (ops.take (i + 1)) =
      (stepOp (runOps c (ops.take i)) (ops.getD i .irq)).1 := by
  induction ops with
  | nil =>
    intro c i h
    simp at h
  | cons op ops ih =>
    intro c i h
    cases i with
    | zero => rfl
    | succ i =>
      simp only [List.take_succ_cons, List.getD_cons_succ, runOps]
      exact ih (stepOp c op).1 i (by simpa using h)

/-- A Boolean sequence that is `true` at `a` and `false` at a later `b`
switches from `true` to `false` somewhere in between. -/
theorem exists_true_false_switch (f : Nat → Bool) : ∀ (b a : Nat), a ≤ b →
    f a = true → f b = false →
    ∃ k, a ≤ k ∧ k < b ∧ f k = true ∧ f (k + 1) = false := by
  intro b
  induction b with
  | zero =>
    intro a hab ha hb
    have : a = 0 := Nat.le_zero.mp hab
    rw [this, hb] at ha
    cases ha
  | succ b ih =>
    intro a hab ha hb
    by_cases hfb : f b = true
    · have hab' : a ≤ b := by
        rcases Nat.lt_or_ge a (b + 1) with hlt | hge
        · omega
        · exfalso
          have : a = b + 1 := by omega
          rw [this, hb] at ha
          cases ha
      exact ⟨b, hab', Nat.lt_succ_self b, hfb, hb⟩
    · have hfb' : f b = false := by
        revert hfb; cases f b <;> simp
      have hab' : a ≤ b := by
        rcases Nat.eq_or_lt_of_le hab with heq | hlt
        · exfalso; rw [heq, hb] at ha; cases ha
        · omega
      obtain ⟨k, h1, h2, h3, h4⟩ := ih a hab' ha hfb'
      exact ⟨k, h1, by omega, h3, h4⟩

/-- C1: the refill callback fires at most once per dip. First, a successful
consumption that leaves the length at or below the refill threshold while
`callback_issued` is clear (and a refill callback is registered) invokes the
callback and sets the flag. Second, along any trace of feed and consumption
operations, between any two operations that fire the refill callback there is
a feed that raised the buffered length strictly above the threshold (which is
what clears the flag and re-arms the callback). -/
theorem refill_once_per_dip (c : Stream_Context) (ops : List StreamOp) (i j : Nat) :
    (c.callback_issued = false → c.config.refill_callback = true →
      c.chunk_size ≤ c.buffer.length →
      c.buffer.length - c.chunk_size ≤ c.config.refill_threshold →
      (spuIrqHandler c).refill_fired = true ∧
        (spuIrqHandler c).ctx.callback_issued = true) ∧
    (i < j → firedAt c ops i → firedAt c ops j →
      ∃ k n, i < k ∧ k < j ∧ ops.getD k .irq = .feed n ∧
        c.config.refill_threshold < (runOps c (ops.take (k + 1))).buffer.length) := by
  constructor
  · intro hflag hcb hle hth
    rw [spuIrqHandler_of_no_underrun c hle]
    simp [hflag, hcb, hth]
  · rintro hij ⟨hi_len, hi_fire⟩ ⟨hj_len, hj_fire⟩
    have hfi : (runOps c (ops.take (i + 1))).callback_issued = true := by
      rw [runOps_take_succ ops c i hi_len]
      exact stepOp_fired_sets_flag _ _ hi_fire
    have hfj : (runOps c (ops.take j)).callback_issued = false := by
      by_contra hcon
      have : (runOps c (ops.take j)).callback_issued = true := by
        revert hcon; cases (runOps c (ops.take j)).callback_issued <;> simp
      rw [stepOp_flag_blocks_fire _ _ this] at hj_fire
      cases hj_fire
    obtain ⟨k, hk1, hk2, hk3, hk4⟩ :=
      exists_true_false_switch
        (fun m => (runOps c (ops.take m)).callback_issued) j (i + 1) hij hfi hfj
    have hkl : k < ops.length := lt_trans hk2 hj_len
    have hstep : (stepOp (runOps c (ops.take k)) (ops.getD k .irq)).1.callback_issued
        = false := by
      rw [← runOps_take_succ ops c k hkl]
      exact hk4
    obtain ⟨n, hop, hgt⟩ := stepOp_flag_cleared_by_feed _ _ hk3 hstep
    refine ⟨k, n, by omega, hk2, hop, ?_⟩
    rw [runOps_take_succ ops c k hkl]
    rw [← runOps_config (ops.take k) c]
    exact hgt

/-- C1 witness: at `ctxSix` the immediate consumption drops the length to 4
(the threshold) and fires the callback; along the trace
`[irq, feed 4, irq, irq]` the callback fires at steps 0 and 3, and indeed the
intervening feed (step 1) raised the length to 8, above the threshold. -/
theorem refill_once_per_dip_witness :
    ((spuIrqHandler ctxSix).refill_fired = true ∧
      (spuIrqHandler ctxSix).ctx.callback_issued = true) ∧
    (∃ k n, 0 < k ∧ k < 3 ∧
      ([StreamOp.irq, .feed 4, .irq, .irq].getD k .irq) = .feed n ∧
      ctxSix.config.refill_threshold <
        (runOps ctxSix ([StreamOp.irq, .feed 4, .irq, .irq].take (k + 1))).buffer.length) :=
  ⟨(refill_once_per_dip ctxSix [StreamOp.irq, .feed 4, .irq, .irq] 0 3).1
      (by decide) (by decide) (by decide) (by decide),
    (refill_once_per_dip ctxSix [StreamOp.irq, .feed 4, .irq, .irq] 0 3).2
      (by decide) (by decide) (by decide)⟩

end CdStream
